import Mathlib

/-!
Shallow embedding of the volatility / tail-risk analytics engine of the
`ineqre-obx` repository (ml-service), together with proofs checking the
natural-language specification against the code.

Numeric conventions: Python floats are modelled as exact rationals (`ℚ`)
wherever the code only performs field arithmetic and comparisons, and as
reals (`ℝ`) where irrational functions (`sqrt`, `log`) or external numeric
oracles (scipy's normal quantile/density, the chi-square CDF, the `arch`
GARCH optimizer, `hmmlearn`'s HMM optimizer) enter.  External libraries are
modelled as opaque oracle parameters, exactly as the spec treats them
("opaque numerical oracles"); `NaN` results of guarded computations are
modelled with `Option`.  Exceptions caught by `try/except` are modelled by
the oracle returning `none`.
-/

namespace IneqreObx

/-- Python tail slice `xs[-m:]` on a list: for `m > 0` it keeps the last
`min m (length xs)` elements; for `m = 0` (since `-0 == 0` in Python) it
keeps the whole list. -/
def pyTail {α : Type} (xs : List α) (m : Nat) : List α :=
  if m = 0 then xs else xs.drop (xs.length - m)

/-- Code: `np.mean` over a rational list (0 on the empty list, matching the
`0/0 = 0` convention of division in `ℚ`; callers guard emptiness). -/
def qMean (xs : List ℚ) : ℚ := xs.sum / xs.length

/-- Sum of squared deviations from the mean. -/
def qSqDev (xs : List ℚ) : ℚ := (xs.map (fun x => (x - qMean xs) ^ 2)).sum

/-- Code: `np.var` / population variance (`ddof=0`). -/
def qVarPop (xs : List ℚ) : ℚ := qSqDev xs / xs.length

/-- Sample variance (`ddof=1`), the square of `np.std(xs, ddof=1)` and of
pandas' rolling `std`. -/
def qVarSamp (xs : List ℚ) : ℚ := qSqDev xs / (xs.length - 1 : ℕ)

/-! ### garch.py — `fit_garch` derived parameters

`fit_garch` delegates the optimisation to the `arch` library and derives
`half_life` and `unconditional_vol` from the fitted `omega`, `alpha[1]`,
`beta[1]`.  The derivations below embed lines 60–67 and 109–110 of
`garch.py`; the `np.isnan` guards that turn NaN into JSON `null` are
modelled by `Option`. -/

/-- Code: `half_life = np.log(0.5) / np.log(persistence) if 0 < persistence < 1
else np.nan`, then `None` when NaN (garch.py lines 62–63 and 109). -/
noncomputable def halfLife (alpha beta : ℝ) : Option ℝ :=
  let p := alpha + beta
  if 0 < p ∧ p < 1 then some (Real.log (1 / 2) / Real.log p) else none

/-- Code: `uncond_var = omega / (1 - persistence) if persistence < 1 else nan`;
`uncond_vol_annual = sqrt(uncond_var * 252) / 100` when `uncond_var` is not
NaN; reported as `None` when NaN (garch.py lines 66–67 and 110).
`np.sqrt` of a negative argument yields NaN, modelled by the sign guard. -/
noncomputable def unconditionalVol (omega alpha beta : ℝ) : Option ℝ :=
  let p := alpha + beta
  if p < 1 then
    if omega / (1 - p) * 252 < 0 then none
    else some (Real.sqrt (omega / (1 - p) * 252) / 100)
  else none

/-! ### var_models.py — `compute_var`, `_garch_var`, `compute_var_series`

The `arch` optimizer and scipy's normal quantile `ppf` / density `pdf` are
external oracles: `z` and `phiz` stand for `stats.norm.ppf(alpha)` and
`stats.norm.pdf(z)`, and the GARCH fit result is an `Option` oracle
(`none` = the exception caught by `try/except`). -/

/-- Code: `np.percentile` with the default linear interpolation: sort ascending,
locate the fractional position `q/100·(n−1)` and interpolate between the
two bracketing order statistics. -/
def npPercentile (xs : List ℚ) (q : ℚ) : ℚ :=
  let s := xs.insertionSort (· ≤ ·)
  let pos := q / 100 * ((xs.length : ℚ) - 1)
  let i := (⌊pos⌋).toNat
  let lo := s.getD i 0
  let hi := s.getD (i + 1) lo
  lo + (pos - (i : ℚ)) * (hi - lo)

/-- Code: `hist_var = -np.percentile(recent, alpha * 100)` (var_models.py line 54). -/
def histVaR (recent : List ℚ) (alpha : ℚ) : ℚ :=
  -(npPercentile recent (alpha * 100))

/-- Code: `tail = recent[recent <= -hist_var]; hist_es = -mean(tail)` when the
tail is nonempty, else `hist_var` (var_models.py lines 55–56). -/
def histES (recent : List ℚ) (alpha : ℚ) : ℚ :=
  let hv := histVaR recent alpha
  let tail := recent.filter (fun r => decide (r ≤ -hv))
  if tail.length > 0 then -(qMean tail) else hv

/-- Code: `param_var = -(mu + z * sigma)` with `mu, sigma` the sample mean and
`ddof=1` standard deviation of the window (var_models.py lines 59–62). -/
noncomputable def paramVaR (recent : List ℚ) (z : ℝ) : ℝ :=
  -((qMean recent : ℝ) + z * Real.sqrt (qVarSamp recent))

/-- Code: `param_es = -(mu - sigma * phi(z) / alpha)` (var_models.py line 64);
`phiz` is the oracle value `stats.norm.pdf(z)`. -/
noncomputable def paramES (recent : List ℚ) (phiz : ℝ) (alpha : ℚ) : ℝ :=
  -((qMean recent : ℝ) - Real.sqrt (qVarSamp recent) * phiz / (alpha : ℝ))

/-- The statistics `_garch_var` consumes from a successful `arch` fit: the
fitted constant mean (in % units) and the 1-step forecast variance
(in %² units). -/
structure GarchVaROracle where
  muScaled : ℝ
  fcastVar : ℝ

/-- Code: `_garch_var` (var_models.py lines 88–118): on a successful fit, apply
the normal-quantile formula to the back-scaled mean and forecast vol and
floor both results at 0; on any exception, fall back to the 252-day
parametric estimate, also floored at 0. -/
noncomputable def garchVaR (returns : List ℚ) (oracle : Option GarchVaROracle)
    (z phiz : ℝ) (alpha : ℚ) : ℝ × ℝ :=
  match oracle with
  | some o =>
      let fvol := Real.sqrt o.fcastVar / 100
      let mu := o.muScaled / 100
      (max (-(mu + z * fvol)) 0, max (-(mu - fvol * phiz / (alpha : ℝ))) 0)
  | none =>
      let last := pyTail returns 252
      let sigma := Real.sqrt (qVarSamp last)
      let mu := (qMean last : ℝ)
      (max (-(mu + z * sigma)) 0, max (-(mu - sigma * phiz / (alpha : ℝ))) 0)

/-- The per-confidence-level entry of the `compute_var` result dict:
`(var, es)` for each of the three methods. -/
structure VaRLevelResult where
  historical : ℚ × ℚ
  parametric : ℝ × ℝ
  garch : ℝ × ℝ

/-- One iteration of the `compute_var` loop (var_models.py lines 44–83) at
confidence level `cl`. -/
noncomputable def computeVarLevel (returns : List ℚ) (window : ℕ) (cl : ℚ)
    (z phiz : ℝ) (oracle : Option GarchVaROracle) : VaRLevelResult :=
  let recent := if returns.length > window then pyTail returns window else returns
  let alpha := 1 - cl
  { historical := (histVaR recent alpha, histES recent alpha)
    parametric := (paramVaR recent z, paramES recent phiz alpha)
    garch := garchVaR returns oracle z phiz alpha }

/-- The statistics `compute_var_series` consumes from a successful `arch`
refit: fitted constant mean and the conditional-volatility path, both in
% units. -/
structure GarchSeriesFit where
  muScaled : ℝ
  condVolScaled : List ℝ

/-- The refit condition of `compute_var_series` (var_models.py line 164):
`last_garch_fit is None or (t - last_garch_fit) >= 20`. -/
def refitDue (prev : Option ℕ) (t : ℕ) : Bool :=
  match prev with
  | none => true
  | some t0 => decide (t0 + 20 ≤ t)

/-- One update of the `last_garch_fit` loop variable: it is set to `t`
only when a refit is due at `t` and the fit succeeds; an exception leaves
it unchanged (var_models.py lines 164–175). -/
def lastFitStep (succ : ℕ → Bool) (prev : Option ℕ) (t : ℕ) : Option ℕ :=
  if refitDue prev t then (if succ t then some t else prev) else prev

/-- Code: `last_garch_fit` after processing day `window + k` of the
`compute_var_series` loop, starting from `None`. -/
def lastFitState (succ : ℕ → Bool) (window : ℕ) : ℕ → Option ℕ
  | 0 => lastFitStep succ none window
  | k + 1 => lastFitStep succ (lastFitState succ window k) (window + (k + 1))

/-- Code: `last_garch_fit` as seen at the start of iteration `t ≥ window`. -/
def lastFitBefore (succ : ℕ → Bool) (window t : ℕ) : Option ℕ :=
  if t ≤ window then none else lastFitState succ window (t - window - 1)

/-- The trailing lookback `returns[t - window:t]` of the rolling loop. -/
def lookbackAt (returns : List ℚ) (window t : ℕ) : List ℚ :=
  (returns.take t).drop (t - window)

/-- Code: `param_var[t] = -(mu + z * sigma)` over the trailing window
(var_models.py lines 159–161). -/
noncomputable def paramVarRollAt (returns : List ℚ) (window : ℕ) (z : ℝ)
    (t : ℕ) : ℝ :=
  -((qMean (lookbackAt returns window t) : ℝ) +
    z * Real.sqrt (qVarSamp (lookbackAt returns window t)))

/-- Code: `garch_var[t]` of `compute_var_series` (var_models.py lines 163–178):
when a refit is due, a successful fit reports
`-(garch_mu + z * garch_cond_vol[-1])` (back-scaled) and a failed fit
reports the parametric value; when no refit is due the code assigns
`param_var[t]` (the `# fallback` line). -/
noncomputable def garchVarRollAt (returns : List ℚ) (window : ℕ) (z : ℝ)
    (oracle : ℕ → Option GarchSeriesFit) (t : ℕ) : ℝ :=
  let prev := lastFitBefore (fun u => (oracle u).isSome) window t
  if refitDue prev t then
    match oracle t with
    | some f =>
        -(f.muScaled / 100 + z * ((f.condVolScaled.getLastD 0) / 100))
    | none => paramVarRollAt returns window z t
  else paramVarRollAt returns window z t

/-! ### regime.py — `fit_regime_model` canonicalization, BIC, `fit_msgarch`

The `hmmlearn` optimizer is an oracle: its raw outputs (per-observation
state path, smoothed probability rows, transition matrix, fitted state
volatilities, log-likelihood score) are parameters, and the embedding
covers the deterministic post-processing: sorting states by volatility
(`np.argsort` + remap dict, regime.py lines 79–89), the BIC assembly
(lines 113–116), and the per-regime GARCH fallback/blending of
`fit_msgarch` (lines 154–212). -/

/-- The comparison underlying `np.argsort(state_vols)`: order state
indices by fitted volatility, ties broken by original index (argsort
returns some permutation sorting the keys; the index tie-break fixes a
canonical one). -/
def volOrder {K : ℕ} (vols : Fin K → ℚ) (i j : Fin K) : Prop :=
  vols i < vols j ∨ (vols i = vols j ∧ (i : ℕ) ≤ (j : ℕ))

instance {K : ℕ} (vols : Fin K → ℚ) : DecidableRel (volOrder vols) :=
  fun _ _ => instDecidableOr

instance {K : ℕ} (vols : Fin K → ℚ) : IsTotal (Fin K) (volOrder vols) where
  total i j := by
    rcases lt_trichotomy (vols i) (vols j) with h | h | h
    · exact Or.inl (Or.inl h)
    · rcases Nat.le_total (i : ℕ) (j : ℕ) with hij | hij
      · exact Or.inl (Or.inr ⟨h, hij⟩)
      · exact Or.inr (Or.inr ⟨h.symm, hij⟩)
    · exact Or.inr (Or.inl h)

instance {K : ℕ} (vols : Fin K → ℚ) : IsTrans (Fin K) (volOrder vols) where
  trans i j k := by
    rintro (h₁ | ⟨e₁, l₁⟩) (h₂ | ⟨e₂, l₂⟩)
    · exact Or.inl (h₁.trans h₂)
    · exact Or.inl (e₂ ▸ h₁)
    · exact Or.inl (e₁ ▸ h₂)
    · exact Or.inr ⟨e₁.trans e₂, l₁.trans l₂⟩

instance {K : ℕ} (vols : Fin K → ℚ) : IsRefl (Fin K) (volOrder vols) where
  refl _ := Or.inr ⟨rfl, le_refl _⟩

/-- Code: `sort_idx = np.argsort(state_vols)` as the list of state indices in
ascending-volatility order. -/
def sortedStateList {K : ℕ} (vols : Fin K → ℚ) : List (Fin K) :=
  (List.finRange K).insertionSort (volOrder vols)

theorem length_sortedStateList {K : ℕ} (vols : Fin K → ℚ) :
    (sortedStateList vols).length = K := by
  rw [sortedStateList, List.length_insertionSort, List.length_finRange]

theorem mem_sortedStateList {K : ℕ} (vols : Fin K → ℚ) (i : Fin K) :
    i ∈ sortedStateList vols := by
  rw [sortedStateList, List.mem_insertionSort]
  exact List.mem_finRange i

theorem nodup_sortedStateList {K : ℕ} (vols : Fin K → ℚ) :
    (sortedStateList vols).Nodup :=
  ((List.perm_insertionSort (volOrder vols) (List.finRange K)).nodup_iff).mpr
    (List.nodup_finRange K)

/-- Code: `sort_idx[i]`: the raw label of the state with the `i`-th smallest
fitted volatility. -/
def sortIdx {K : ℕ} (vols : Fin K → ℚ) (i : Fin K) : Fin K :=
  (sortedStateList vols).get (Fin.cast (length_sortedStateList vols).symm i)

/-- The remap dict `{old: new for new, old in enumerate(sort_idx)}`
(regime.py line 84): the canonical label of raw state `o` is the position
of `o` in `sort_idx`. -/
def remapIdx {K : ℕ} (vols : Fin K → ℚ) (o : Fin K) : Fin K :=
  ⟨(sortedStateList vols).indexOf o,
    lt_of_lt_of_eq (List.indexOf_lt_length.mpr (mem_sortedStateList vols o))
      (length_sortedStateList vols)⟩

/-- Code: `states_sorted = [remap[s] for s in states]` (regime.py line 85). -/
def statesSorted {K : ℕ} (vols : Fin K → ℚ) (states : List (Fin K)) :
    List (Fin K) :=
  states.map (remapIdx vols)

/-- One row of `probs_sorted = state_probs[:, sort_idx]` (regime.py
line 86): canonical column `i` reads raw column `sort_idx[i]`. -/
def rowSorted {K : ℕ} (vols : Fin K → ℚ) (row : Fin K → ℚ) : Fin K → ℚ :=
  fun i => row (sortIdx vols i)

/-- Code: `probs_sorted` applied row-wise. -/
def probsSorted {K : ℕ} (vols : Fin K → ℚ) (probs : List (Fin K → ℚ)) :
    List (Fin K → ℚ) :=
  probs.map (rowSorted vols)

/-- Code: `trans = model.transmat_[sort_idx][:, sort_idx]` (regime.py line 89). -/
def transSorted {K : ℕ} (vols : Fin K → ℚ) (trans : Fin K → Fin K → ℚ) :
    Fin K → Fin K → ℚ :=
  fun i j => trans (sortIdx vols i) (sortIdx vols j)

/-- The score/BIC fields of the `fit_regime_model` result (regime.py
lines 113–116 and 127–128): `n_params = K² + 2K − 1`,
`log_lik = model.score(X) * n`, `bic = −2·log_lik + n_params·ln(n)`,
while `model_score` reports `model.score(X)` itself.  `score` is the
`hmmlearn` oracle value. -/
structure RegimeScorePart where
  model_score : ℝ
  bic : ℝ

noncomputable def regimeScorePart (score : ℝ) (n K : ℕ) : RegimeScorePart :=
  { model_score := score
    bic := -2 * (score * n) +
      (((K : ℤ) * K + 2 * K - 1 : ℤ) : ℝ) * Real.log n }

/-- Code: `np.std(xs) * np.sqrt(252)` — the raw annualized sample volatility
used as the per-regime fallback (population `std`, `ddof=0`). -/
noncomputable def annSampleStd (xs : List ℚ) : ℝ :=
  Real.sqrt (qVarPop xs) * Real.sqrt 252

/-- The forecast volatility `fit_msgarch` records for one regime
(regime.py lines 156–206): a regime with fewer than 50 observations skips
the GARCH fit and gets the annualized sample std — but only when it has
more than 5 observations, else `0`; a regime with ≥ 50 observations gets
`sqrt(fcast_var · 252)/100` from a successful fit (`fcastVar` oracle, in
%² units) and the annualized sample std when the fit raises. -/
noncomputable def regimeForecastVol (stateReturns : List ℚ)
    (oracle : Option ℝ) : ℝ :=
  if stateReturns.length < 50 then
    (if 5 < stateReturns.length then annSampleStd stateReturns else 0)
  else
    match oracle with
    | some fcastVar => Real.sqrt (fcastVar * 252) / 100
    | none => annSampleStd stateReturns

/-- Code: `blended_vol = sum(current_probs[i] * rg["forecast_vol"])`
(regime.py lines 209–212), pairing probabilities and per-regime forecast
vols positionally. -/
noncomputable def blendedForecastVol (probs fvols : List ℝ) : ℝ :=
  ((probs.zip fvols).map (fun q => q.1 * q.2)).sum

/-! ### var_backtest.py — `kupiec_test`, `christoffersen_test`, `run_backtest`

`stats.chi2.cdf(·, df=1)` is the external oracle `chi2cdf`. -/

/-- Code: `violations = returns < -var_series; x = int(np.sum(violations))`
(var_backtest.py lines 42–44), pairing the two arrays positionally. -/
def violationCount (rets varSeries : List ℚ) : ℕ :=
  ((rets.zip varSeries).filter (fun q => decide (q.1 < -q.2))).length

/-- The Kupiec LR statistic (var_backtest.py lines 49–57): for `x = 0` the
statistic is literally `0` (the trailing `if x > 0 else 0`); for `x = n`
(with `n > 0`) the approximate formula with `max(p, 1e-10)` guards; for
`0 < x < n` the exact likelihood-ratio formula. -/
noncomputable def kupiecLR (rets varSeries : List ℚ) (c : ℚ) : ℝ :=
  let n := rets.length
  let x := violationCount rets varSeries
  let pe : ℚ := 1 - c
  let po : ℚ := if 0 < n then (x : ℚ) / n else 0
  if x = 0 ∨ x = n then
    if 0 < x then
      2 * (n : ℝ) * ((po : ℝ) * Real.log ((max po (1/10^10) / pe : ℚ)) +
        ((1 - po : ℚ) : ℝ) *
          Real.log ((max (1 - po) (1/10^10) / (1 - pe) : ℚ)))
    else 0
  else
    -2 * ((x : ℝ) * Real.log ((pe : ℚ)) +
      ((n - x : ℕ) : ℝ) * Real.log ((1 - pe : ℚ)) -
      (x : ℝ) * Real.log ((po : ℚ)) -
      ((n - x : ℕ) : ℝ) * Real.log ((1 - po : ℚ)))

/-- Code: `p_value = 1 - stats.chi2.cdf(lr_stat, df=1) if lr_stat > 0 else 1.0`
(var_backtest.py lines 59 and 119). -/
noncomputable def chiSquarePValue (chi2cdf : ℝ → ℝ) (lr : ℝ) : ℝ :=
  if 0 < lr then 1 - chi2cdf lr else 1

/-- The fields of the `kupiec_test` result dict (var_backtest.py
lines 61–72). -/
structure KupiecResult where
  n_observations : ℕ
  n_violations : ℕ
  expected_violations : ℚ
  violation_rate : ℚ
  expected_rate : ℚ
  lr_statistic : ℝ
  p_value : ℝ
  reject_h0 : Prop

noncomputable def kupiecTest (chi2cdf : ℝ → ℝ) (rets varSeries : List ℚ)
    (c : ℚ) : KupiecResult :=
  let n := rets.length
  let x := violationCount rets varSeries
  let lr := kupiecLR rets varSeries c
  let p := chiSquarePValue chi2cdf lr
  { n_observations := n
    n_violations := x
    expected_violations := (n : ℚ) * (1 - c)
    violation_rate := if 0 < n then (x : ℚ) / n else 0
    expected_rate := 1 - c
    lr_statistic := lr
    p_value := p
    reject_h0 := p < 0.05 }

/-- Modelled from the spec: the claim's "direct log-likelihood-ratio
formula with probabilities guarded by max(p, ε)" which it asserts is used
for **both** degenerate cases `x = 0` and `x = n`; stated for comparison
with `kupiecLR`. -/
noncomputable def kupiecDegenerateLRSpec (n x : ℕ) (c : ℚ) : ℝ :=
  let pe : ℚ := 1 - c
  let po : ℚ := if 0 < n then (x : ℚ) / n else 0
  2 * (n : ℝ) * ((po : ℝ) * Real.log ((max po (1/10^10) / pe : ℚ)) +
    ((1 - po : ℚ) : ℝ) * Real.log ((max (1 - po) (1/10^10) / (1 - pe) : ℚ)))

/-- The 2×2 transition counts of consecutive violation indicators
(var_backtest.py lines 89–99): `(n00, n01, n10, n11)`. -/
def transitionCounts (vio : List Bool) : ℕ × ℕ × ℕ × ℕ :=
  let pairs := vio.zip vio.tail
  ((pairs.filter (fun q => !q.1 && !q.2)).length,
   (pairs.filter (fun q => !q.1 && q.2)).length,
   (pairs.filter (fun q => q.1 && !q.2)).length,
   (pairs.filter (fun q => q.1 && q.2)).length)

/-- The fields of the `christoffersen_test` result dict consumed
downstream (var_backtest.py lines 121–134). -/
structure ChristoffersenResult where
  n00 : ℕ
  n01 : ℕ
  n10 : ℕ
  n11 : ℕ
  p01 : ℚ
  p11 : ℚ
  lr_statistic : ℝ
  p_value : ℝ
  reject_h0 : Prop

/-- Code: `christoffersen_test` (var_backtest.py lines 75–134); the LR is `0` in
every degenerate case (any transition probability equal to 0 or 1). -/
noncomputable def christoffersenTest (chi2cdf : ℝ → ℝ)
    (rets varSeries : List ℚ) : ChristoffersenResult :=
  let vio := (rets.zip varSeries).map (fun q => decide (q.1 < -q.2))
  let n := vio.length
  let cnt := transitionCounts vio
  let n00 := cnt.1
  let n01 := cnt.2.1
  let n10 := cnt.2.2.1
  let n11 := cnt.2.2.2
  let p01 : ℚ := if 0 < n00 + n01 then (n01 : ℚ) / (n00 + n01) else 0
  let p11 : ℚ := if 0 < n10 + n11 then (n11 : ℚ) / (n10 + n11) else 0
  let phat : ℚ := if 1 < n then ((n01 + n11 : ℕ) : ℚ) / ((n : ℚ) - 1) else 0
  let lr : ℝ :=
    if p01 = 0 ∨ p11 = 0 ∨ p01 = 1 ∨ p11 = 1 ∨ phat = 0 ∨ phat = 1 then 0
    else
      -2 * (((n00 + n10 : ℕ) : ℝ) * Real.log ((1 - phat : ℚ)) +
          ((n01 + n11 : ℕ) : ℝ) * Real.log ((phat : ℚ)) -
        ((n00 : ℝ) * Real.log ((1 - p01 : ℚ)) +
          (n01 : ℝ) * Real.log ((p01 : ℚ)) +
          (n10 : ℝ) * Real.log ((1 - p11 : ℚ)) +
          (n11 : ℝ) * Real.log ((p11 : ℚ))))
  let p := chiSquarePValue chi2cdf lr
  { n00 := n00, n01 := n01, n10 := n10, n11 := n11
    p01 := p01, p11 := p11
    lr_statistic := lr
    p_value := p
    reject_h0 := p < 0.05 }

/-- The alignment and NaN-stripping prologue of `run_backtest`
(var_backtest.py lines 146–154), on `Option`-valued arrays (`none` = NaN):
slice both arrays with `[-min_len:]` (Python `-0` keeps the whole array),
then drop every index at which either entry is NaN.  The numpy broadcast
`ValueError` raised when the sliced shapes differ (exactly one input
empty) is modelled by `none`. -/
def cleanPairs (rets varSeries : List (Option ℚ)) : List (ℚ × ℚ) :=
  ((pyTail rets (min rets.length varSeries.length)).zip
    (pyTail varSeries (min rets.length varSeries.length))).filterMap
    (fun q =>
      match q.1, q.2 with
      | some a, some b => some (a, b)
      | _, _ => none)

/-- The `run_backtest` prologue as an `Option`: the aligned NaN-free
survivor arrays, or `none` for the numpy shape error. -/
def alignClean (rets varSeries : List (Option ℚ)) :
    Option (List ℚ × List ℚ) :=
  let m := min rets.length varSeries.length
  if (pyTail rets m).length = (pyTail varSeries m).length then
    some ((cleanPairs rets varSeries).map Prod.fst,
      (cleanPairs rets varSeries).map Prod.snd)
  else none

/-- Basel traffic light (var_backtest.py lines 164–169). -/
inductive TrafficLight
  | green
  | yellow
  | red
deriving DecidableEq

def trafficLight (violations : ℕ) (expected : ℚ) : TrafficLight :=
  if (violations : ℚ) ≤ expected * 1.5 then TrafficLight.green
  else if (violations : ℚ) ≤ expected * 2.5 then TrafficLight.yellow
  else TrafficLight.red

/-- The `run_backtest` result (var_backtest.py lines 171–182). -/
structure BacktestResult where
  kupiec : KupiecResult
  christoffersen : ChristoffersenResult
  traffic_light : TrafficLight
  model_adequate : Prop
  violations_independent : Prop
  overall_pass : Prop

/-- Code: `run_backtest` (var_backtest.py lines 137–182): align, strip NaNs,
then run both tests and grade on the surviving pairs. -/
noncomputable def runBacktest (chi2cdf : ℝ → ℝ)
    (rets varSeries : List (Option ℚ)) (c : ℚ) : Option BacktestResult :=
  match alignClean rets varSeries with
  | none => none
  | some (r, v) =>
    let k := kupiecTest chi2cdf r v c
    let ch := christoffersenTest chi2cdf r v
    some { kupiec := k
           christoffersen := ch
           traffic_light := trafficLight k.n_violations k.expected_violations
           model_adequate := ¬ k.reject_h0
           violations_independent := ¬ ch.reject_h0
           overall_pass := ¬ k.reject_h0 ∧ ¬ ch.reject_h0 }

/-! ### jump_detection.py — `detect_jumps`

Only the return-path statistics enter the claims; `min_periods=20` is the
hard-coded literal of lines 53–54. -/

/-- The pandas rolling window of length `w` ending at (and including)
index `t`. -/
def rollWindow (xs : List ℚ) (w t : ℕ) : List ℚ :=
  (xs.take (t + 1)).drop (t + 1 - w)

/-- Code: `pd.Series(returns).rolling(rolling_window, min_periods=20).std()` at
index `t`: defined (non-NaN) iff the window holds at least 20
observations; pandas' rolling std is the `ddof=1` sample standard
deviation. -/
noncomputable def rollingStd (xs : List ℚ) (w t : ℕ) : Option ℝ :=
  if 20 ≤ (rollWindow xs w t).length ∧ t < xs.length then
    some (Real.sqrt ((qVarSamp (rollWindow xs w t) : ℚ) : ℝ))
  else none

/-- Index `t` is flagged as a jump by `detect_jumps` (jump_detection.py
lines 69–92): the scan loop covers `rolling_window ≤ t < n`; indices with
NaN or zero rolling std are skipped; otherwise `t` is flagged exactly when
`|z| ≥ threshold_sigma` and `|r_t| ≥ min_abs_return`, with
`z = (r_t − rolling_mean_t)/rolling_std_t`. -/
noncomputable def isJumpAt (xs : List ℚ) (w : ℕ) (thresholdSigma minAbsReturn : ℚ)
    (t : ℕ) : Prop :=
  w ≤ t ∧ t < xs.length ∧
  ∃ s : ℝ, rollingStd xs w t = some s ∧ s ≠ 0 ∧
    (thresholdSigma : ℝ) ≤
      |((xs.getD t 0 - qMean (rollWindow xs w t) : ℚ) : ℝ) / s| ∧
    minAbsReturn ≤ |xs.getD t 0|

/-! ## Theorems -/

/-- C5: for a non-stationary fit (persistence ≥ 1) both `half_life` and
`unconditional_vol` are `null` and no exception is raised (the functions
are total); for `0 < persistence < 1` (with the fitting routine's
structural guarantee `omega ≥ 0`) both fields are defined real numbers and
`half_life = ln(0.5)/ln(persistence)`. -/
theorem fit_garch_persistence_edge_cases (omega alpha beta : ℝ)
    (hω : 0 ≤ omega) :
    (1 ≤ alpha + beta →
      halfLife alpha beta = none ∧ unconditionalVol omega alpha beta = none) ∧
    (0 < alpha + beta → alpha + beta < 1 →
      halfLife alpha beta = some (Real.log (1 / 2) / Real.log (alpha + beta)) ∧
      unconditionalVol omega alpha beta =
        some (Real.sqrt (omega / (1 - (alpha + beta)) * 252) / 100)) := by
  constructor
  · intro h1
    constructor
    · simp only [halfLife]
      rw [if_neg]
      rintro ⟨-, hlt⟩
      exact absurd h1 (not_le.mpr hlt)
    · simp only [unconditionalVol]
      rw [if_neg (not_lt.mpr h1)]
  · intro h0 h1
    constructor
    · simp only [halfLife]
      rw [if_pos ⟨h0, h1⟩]
    · simp only [unconditionalVol]
      rw [if_pos h1, if_neg]
      push_neg
      have hden : (0:ℝ) < 1 - (alpha + beta) := by linarith
      positivity

/-- Witness for C5 at the concrete fit ω = 1, α = 0.05, β = 0.9
(persistence 0.95) and at ω = 1, α = 0.6, β = 0.6 (persistence 1.2). -/
theorem fit_garch_persistence_edge_cases_witness :
    (halfLife 0.05 0.9 = some (Real.log (1 / 2) / Real.log (0.05 + 0.9)) ∧
      unconditionalVol 1 0.05 0.9 =
        some (Real.sqrt ((1:ℝ) / (1 - (0.05 + 0.9)) * 252) / 100)) ∧
    (halfLife 0.6 0.6 = none ∧ unconditionalVol 1 0.6 0.6 = none) := by
  refine ⟨⟨?_, ?_⟩, ?_⟩
  · exact ((fit_garch_persistence_edge_cases 1 0.05 0.9 (by norm_num)).2
      (by norm_num) (by norm_num)).1
  · exact ((fit_garch_persistence_edge_cases 1 0.05 0.9 (by norm_num)).2
      (by norm_num) (by norm_num)).2
  · exact (fit_garch_persistence_edge_cases 1 0.6 0.6 (by norm_num)).1
      (by norm_num)

/-- C1, counterexample: the claim that **all six** values returned by
`compute_var` are floored at 0 is false — the historical VaR is the
negated empirical percentile with no floor, so on the all-positive return
series `[0.01, 0.01, 0.01]` it is `-0.01 < 0`. -/
theorem compute_var_all_floored_counterexample :
    (computeVarLevel [1/100, 1/100, 1/100] 252 (95/100) 0 0
      none).historical.1 < 0 := by
  norm_num [computeVarLevel, histVaR, npPercentile, List.insertionSort,
    List.orderedInsert]

/-- C1 (amended): the two GARCH values returned by `compute_var` are
floored at 0 on both the success and the fallback path; the historical and
parametric values carry no floor. -/
theorem compute_var_garch_floored (returns : List ℚ) (window : ℕ) (cl : ℚ)
    (z phiz : ℝ) (oracle : Option GarchVaROracle) :
    0 ≤ (computeVarLevel returns window cl z phiz oracle).garch.1 ∧
    0 ≤ (computeVarLevel returns window cl z phiz oracle).garch.2 := by
  cases oracle <;>
    exact ⟨le_max_right _ _, le_max_right _ _⟩

/-- C2: in `compute_var_series`, on every day `t` strictly between two
GARCH refits (the last successful fit happened at `t0` with
`t < t0 + 20`), the reported GARCH VaR equals the **parametric** VaR of
the trailing window — it is not derived from the held conditional-vol
estimate of the last fit, contradicting the code's own comments. -/
theorem compute_var_series_between_refits (returns : List ℚ) (window : ℕ)
    (z : ℝ) (oracle : ℕ → Option GarchSeriesFit) (t t0 : ℕ)
    (h : lastFitBefore (fun u => (oracle u).isSome) window t = some t0)
    (hlt : t < t0 + 20) :
    garchVarRollAt returns window z oracle t =
      paramVarRollAt returns window z t := by
  have hdue : refitDue (some t0) t = false := by
    simp only [refitDue, decide_eq_false_iff_not]
    omega
  simp only [garchVarRollAt, h, hdue, if_false, Bool.false_eq_true]

/-- Witness for C2: 22 days of returns `0.01`, `window = 2`; the oracle
succeeds at every attempted refit (constant mean 0, conditional vol path
`[100]` in % units).  The refit at `t = 2` succeeds, so day `t = 3` lies
strictly between refits and its GARCH VaR is the parametric value. -/
theorem compute_var_series_between_refits_witness :
    garchVarRollAt (List.replicate 22 (1/100)) 2 0
      (fun _ => some ⟨0, [100]⟩) 3 =
    paramVarRollAt (List.replicate 22 (1/100)) 2 0 3 := by
  refine compute_var_series_between_refits
    (List.replicate 22 (1/100)) 2 0 (fun _ => some ⟨0, [100]⟩) 3 2 ?_ ?_
  · simp [lastFitBefore, lastFitState, lastFitStep, refitDue]
  · omega

/-- C3: the state relabeling of `fit_regime_model` is one permutation
applied consistently everywhere: (1) the canonical ordering lists the
fitted volatilities ascending, so canonical state 0 is the
lowest-volatility regime; (2)–(3) `remap` is the two-sided inverse of
`sort_idx`; (4)–(5) assignments and probability rows are relabeled
entry-wise by that permutation; (6) a relabeled probability row evaluated
at a relabeled assignment recovers the raw probability; (7) the permuted
transition matrix evaluated at relabeled states recovers the raw
transition probability. -/
theorem fit_regime_model_canonicalization {K : ℕ} (vols : Fin K → ℚ)
    (states : List (Fin K)) (probs : List (Fin K → ℚ))
    (trans : Fin K → Fin K → ℚ) :
    (∀ i j : Fin K, i ≤ j → vols (sortIdx vols i) ≤ vols (sortIdx vols j)) ∧
    (∀ i : Fin K, remapIdx vols (sortIdx vols i) = i) ∧
    (∀ o : Fin K, sortIdx vols (remapIdx vols o) = o) ∧
    (∀ t : ℕ, (statesSorted vols states).get? t =
      (states.get? t).map (remapIdx vols)) ∧
    (∀ t : ℕ, (probsSorted vols probs).get? t =
      (probs.get? t).map (rowSorted vols)) ∧
    (∀ (row : Fin K → ℚ) (s : Fin K),
      rowSorted vols row (remapIdx vols s) = row s) ∧
    (∀ a b : Fin K, transSorted vols trans (remapIdx vols a)
      (remapIdx vols b) = trans a b) := by
  have hsorted : (sortedStateList vols).Sorted (volOrder vols) :=
    List.sorted_insertionSort (volOrder vols) (List.finRange K)
  have hinv : ∀ o : Fin K, sortIdx vols (remapIdx vols o) = o := by
    intro o
    exact List.indexOf_get _
  have hmono : ∀ i j : Fin K, i ≤ j →
      vols (sortIdx vols i) ≤ vols (sortIdx vols j) := by
    intro i j hij
    have h := hsorted.rel_get_of_le
      (a := Fin.cast (length_sortedStateList vols).symm i)
      (b := Fin.cast (length_sortedStateList vols).symm j) hij
    rcases h with h | ⟨h, -⟩
    · exact le_of_lt h
    · exact le_of_eq h
  refine ⟨hmono, ?_, hinv, ?_, ?_, ?_, ?_⟩
  · intro i
    apply Fin.ext
    exact List.get_indexOf (nodup_sortedStateList vols) _
  · intro t
    simp [statesSorted, List.get?_map]
  · intro t
    simp [probsSorted, List.get?_map]
  · intro row s
    simp only [rowSorted, hinv]
  · intro a b
    simp only [transSorted, hinv]

/-- Witness for C3 at `K = 2` with raw state volatilities `(3, 1)` (the
optimizer labeled the high-volatility regime 0): after canonicalization,
state 0 has the smaller volatility. -/
theorem fit_regime_model_canonicalization_witness :
    (![3, 1] : Fin 2 → ℚ) (sortIdx ![3, 1] 0) ≤
      (![3, 1] : Fin 2 → ℚ) (sortIdx ![3, 1] 1) :=
  (fit_regime_model_canonicalization ![3, 1] [] []
    (fun _ _ => 0)).1 0 1 (by decide)

/-- C4, counterexample: the reported `bic` is **not**
`−2·model_score + (K² + 2K − 1)·ln(n)` — at oracle score 1, `n = 2`,
`K = 2` the code's value is `−4 + 7·ln 2` while the claimed formula gives
`−2 + 7·ln 2`. -/
theorem fit_regime_model_bic_counterexample :
    (regimeScorePart 1 2 2).bic ≠
      -2 * (regimeScorePart 1 2 2).model_score +
        (((2 : ℤ) * 2 + 2 * 2 - 1 : ℤ) : ℝ) * Real.log 2 := by
  simp only [regimeScorePart]
  intro h
  norm_num at h

/-- C4 (amended): the reported `bic` equals
`−2·(n · model_score) + (K² + 2K − 1)·ln(n)`: the log-likelihood the code
feeds into the BIC is `model.score(X) * n`, i.e. `n` times the quantity it
reports as `model_score`. -/
theorem fit_regime_model_bic_amended (score : ℝ) (n K : ℕ) :
    (regimeScorePart score n K).bic =
      -2 * ((n : ℝ) * (regimeScorePart score n K).model_score) +
        (((K : ℤ) * K + 2 * K - 1 : ℤ) : ℝ) * Real.log n := by
  simp only [regimeScorePart]
  ring

/-- C7, counterexample: a regime with 3 (< 50) assigned observations and
nonzero dispersion gets fallback forecast vol `0`, not the annualized
sample std `std·√252` — the code only uses the std fallback when the
regime has more than 5 observations. -/
theorem fit_msgarch_small_regime_counterexample :
    regimeForecastVol [1/100, 2/100, 3/100] none = 0 ∧
    annSampleStd [1/100, 2/100, 3/100] ≠ 0 := by
  constructor
  · simp [regimeForecastVol]
  · have hv : qVarPop [1/100, 2/100, 3/100] = 1/15000 := by
      norm_num [qVarPop, qSqDev, qMean]
    have h1 : (0:ℝ) < Real.sqrt ((qVarPop [1/100, 2/100, 3/100] : ℚ) : ℝ) := by
      rw [hv]
      apply Real.sqrt_pos.mpr
      norm_num
    have h2 : (0:ℝ) < Real.sqrt 252 := Real.sqrt_pos.mpr (by norm_num)
    exact ne_of_gt (mul_pos h1 h2)

/-- C7 (amended): the per-regime forecast substitution of `fit_msgarch`:
a regime with more than 5 but fewer than 50 observations gets the
annualized sample std; a regime with at most 5 observations gets `0`; a
regime with at least 50 observations whose GARCH fit raises gets the
annualized sample std.  The function is total, so no per-regime failure
aborts the computation. -/
theorem fit_msgarch_fallback_amended (xs : List ℚ) (oracle : Option ℝ) :
    (5 < xs.length → xs.length < 50 →
      regimeForecastVol xs oracle = annSampleStd xs) ∧
    (xs.length ≤ 5 → regimeForecastVol xs oracle = 0) ∧
    (50 ≤ xs.length → regimeForecastVol xs none = annSampleStd xs) := by
  refine ⟨fun h5 h50 => ?_, fun h5 => ?_, fun h50 => ?_⟩
  · rw [regimeForecastVol.eq_def, if_pos h50, if_pos h5]
  · rw [regimeForecastVol.eq_def, if_pos (by omega), if_neg (by omega)]
  · rw [regimeForecastVol.eq_def, if_neg (by omega)]

/-- Witness for C7 at regimes of 6, 1 and 50 observations. -/
theorem fit_msgarch_fallback_amended_witness :
    regimeForecastVol (List.replicate 6 (1/100)) (some 1) =
      annSampleStd (List.replicate 6 (1/100)) ∧
    regimeForecastVol [1/100] (some 1) = 0 ∧
    regimeForecastVol (List.replicate 50 (1/100)) none =
      annSampleStd (List.replicate 50 (1/100)) := by
  refine ⟨?_, ?_, ?_⟩
  · exact (fit_msgarch_fallback_amended (List.replicate 6 (1/100))
      (some 1)).1 (by simp) (by simp)
  · exact (fit_msgarch_fallback_amended [1/100] (some 1)).2.1 (by simp)
  · exact (fit_msgarch_fallback_amended (List.replicate 50 (1/100))
      (some 1)).2.2 (by simp)

/-- Pairwise-product sums against a nonnegative weight list are bounded by
the weight sum times any uniform bounds on the second list. -/
theorem weighted_sum_bounds (m M : ℝ) :
    ∀ (ps vs : List ℝ), ps.length = vs.length →
    (∀ p ∈ ps, 0 ≤ p) → (∀ v ∈ vs, m ≤ v ∧ v ≤ M) →
    m * ps.sum ≤ ((ps.zip vs).map (fun q => q.1 * q.2)).sum ∧
      ((ps.zip vs).map (fun q => q.1 * q.2)).sum ≤ M * ps.sum
  | [], [], _, _, _ => by simp
  | [], _ :: _, h, _, _ => by simp at h
  | _ :: _, [], h, _, _ => by simp at h
  | p :: ps, v :: vs, h, hnn, hb => by
    obtain ⟨ih1, ih2⟩ := weighted_sum_bounds m M ps vs (by simpa using h)
      (fun q hq => hnn q (List.mem_cons_of_mem _ hq))
      (fun w hw => hb w (List.mem_cons_of_mem _ hw))
    have hp : 0 ≤ p := hnn p (List.mem_cons_self _ _)
    obtain ⟨hv1, hv2⟩ := hb v (List.mem_cons_self _ _)
    simp only [List.zip_cons_cons, List.map_cons, List.sum_cons]
    constructor
    · have hpv : m * p ≤ p * v := by nlinarith
      calc m * (p + ps.sum) = m * p + m * ps.sum := by ring
        _ ≤ p * v + ((ps.zip vs).map (fun q => q.1 * q.2)).sum :=
          add_le_add hpv ih1
    · have hpv : p * v ≤ M * p := by nlinarith
      calc p * v + ((ps.zip vs).map (fun q => q.1 * q.2)).sum ≤
          M * p + M * ps.sum := add_le_add hpv ih2
        _ = M * (p + ps.sum) := by ring

/-- Positional pairwise-product sum written as an index sum. -/
theorem zip_mul_sum_eq_range_sum :
    ∀ (ps vs : List ℝ), ps.length = vs.length →
    ((ps.zip vs).map (fun q => q.1 * q.2)).sum =
      ∑ i ∈ Finset.range ps.length, ps.getD i 0 * vs.getD i 0
  | [], [], _ => by simp
  | [], _ :: _, h => by simp at h
  | _ :: _, [], h => by simp at h
  | p :: ps, v :: vs, h => by
    have ih := zip_mul_sum_eq_range_sum ps vs (by simpa using h)
    simp only [List.zip_cons_cons, List.map_cons, List.sum_cons,
      List.length_cons, Finset.sum_range_succ']
    simp only [List.getD_cons_succ, List.getD_cons_zero]
    rw [ih]
    ring

/-- C9: the blended forecast of `fit_msgarch` is the probability-weighted
positional sum `Σ_i current_probs[i] · forecast_vol_i`, and for any
probability vector (nonnegative entries summing to 1) it lies between any
lower bound `m` and upper bound `M` of the per-regime forecast vols — in
particular between their minimum and maximum. -/
theorem fit_msgarch_blended_convex (probs fvols : List ℝ) (m M : ℝ)
    (hlen : probs.length = fvols.length)
    (hnn : ∀ p ∈ probs, 0 ≤ p) (hsum : probs.sum = 1)
    (hb : ∀ v ∈ fvols, m ≤ v ∧ v ≤ M) :
    blendedForecastVol probs fvols =
      (∑ i ∈ Finset.range probs.length, probs.getD i 0 * fvols.getD i 0) ∧
    m ≤ blendedForecastVol probs fvols ∧
    blendedForecastVol probs fvols ≤ M := by
  have h := weighted_sum_bounds m M probs fvols hlen hnn hb
  rw [hsum, mul_one, mul_one] at h
  exact ⟨zip_mul_sum_eq_range_sum probs fvols hlen, h.1, h.2⟩

/-- Witness for C9: probabilities `(1/2, 1/2)` over forecast vols
`(1, 3)`. -/
theorem fit_msgarch_blended_convex_witness :
    blendedForecastVol [1/2, 1/2] [1, 3] =
      (∑ i ∈ Finset.range 2,
        ([1/2, 1/2] : List ℝ).getD i 0 * ([1, 3] : List ℝ).getD i 0) ∧
    (1:ℝ) ≤ blendedForecastVol [1/2, 1/2] [1, 3] ∧
    blendedForecastVol [1/2, 1/2] [1, 3] ≤ 3 := by
  have h := fit_msgarch_blended_convex [1/2, 1/2] [1, 3] 1 3 (by simp)
    (by intro p hp; simp at hp; norm_num [hp])
    (by norm_num)
    (by intro v hv; simp at hv; rcases hv with h | h <;> norm_num [h])
  simpa using h

/-- C6, counterexample: for the degenerate case `x = 0` the Kupiec LR is
**not** computed by the direct max-guarded log-likelihood-ratio formula —
the code returns literally `0` (`... if x > 0 else 0`), while the formula
evaluates to `2·n·ln(1/(1−p_expected)) = 4·ln(100/99) ≠ 0` on two
violation-free observations at 99% confidence. -/
theorem kupiec_test_degenerate_counterexample :
    kupiecLR [1/100, 1/100] [2/100, 2/100] (99/100) = 0 ∧
    kupiecDegenerateLRSpec 2 0 (99/100) ≠ 0 := by
  constructor
  · have hx : violationCount [1/100, 1/100] [2/100, 2/100] = 0 := by
      norm_num [violationCount, List.zip, List.zipWith, List.filter]
    simp only [kupiecLR, hx, List.length_cons, List.length_nil]
    norm_num
  · simp only [kupiecDegenerateLRSpec]
    norm_num [max_def]

/-- C6 (amended): the Kupiec LR statistic equals the exact
likelihood-ratio formula when `0 < x < n`, the direct max-guarded formula
when `x = n > 0`, and literally `0` when `x = 0`; the p-value is
`1 − χ²(df=1).CDF(LR)` for `LR > 0` and exactly `1` for `LR ≤ 0`; and
`reject_h0` holds exactly when the p-value is below 0.05. -/
theorem kupiec_test_characterization (chi2cdf : ℝ → ℝ)
    (rets varSeries : List ℚ) (c : ℚ) (n x : ℕ)
    (hn : rets.length = n) (hx : violationCount rets varSeries = x) :
    (0 < x → x < n →
      (kupiecTest chi2cdf rets varSeries c).lr_statistic =
        -2 * ((x : ℝ) * Real.log ((1 - c : ℚ)) +
          ((n - x : ℕ) : ℝ) * Real.log ((1 - (1 - c) : ℚ)) -
          (x : ℝ) * Real.log (((x : ℚ) / n : ℚ)) -
          ((n - x : ℕ) : ℝ) * Real.log ((1 - (x : ℚ) / n : ℚ)))) ∧
    (x = n → 0 < n →
      (kupiecTest chi2cdf rets varSeries c).lr_statistic =
        kupiecDegenerateLRSpec n x c) ∧
    (x = 0 → (kupiecTest chi2cdf rets varSeries c).lr_statistic = 0) ∧
    (0 < (kupiecTest chi2cdf rets varSeries c).lr_statistic →
      (kupiecTest chi2cdf rets varSeries c).p_value =
        1 - chi2cdf (kupiecTest chi2cdf rets varSeries c).lr_statistic) ∧
    ((kupiecTest chi2cdf rets varSeries c).lr_statistic ≤ 0 →
      (kupiecTest chi2cdf rets varSeries c).p_value = 1) ∧
    ((kupiecTest chi2cdf rets varSeries c).reject_h0 ↔
      (kupiecTest chi2cdf rets varSeries c).p_value < 0.05) := by
  subst hn
  subst hx
  refine ⟨fun h1 h2 => ?_, fun hxn h0 => ?_, fun h0 => ?_, fun hp => ?_,
    fun hp => ?_, Iff.rfl⟩
  · show kupiecLR rets varSeries c = _
    rw [kupiecLR]
    rw [if_neg (by omega), if_pos (by omega)]
  · show kupiecLR rets varSeries c = _
    rw [kupiecLR, kupiecDegenerateLRSpec]
    rw [if_pos (Or.inr hxn), if_pos (by omega)]
  · show kupiecLR rets varSeries c = 0
    rw [kupiecLR]
    rw [if_pos (Or.inl h0), if_neg (by omega)]
  · have hp' : 0 < kupiecLR rets varSeries c := hp
    show chiSquarePValue chi2cdf (kupiecLR rets varSeries c) = _
    rw [chiSquarePValue, if_pos hp']
    rfl
  · have hp' : ¬ 0 < kupiecLR rets varSeries c := not_lt.mpr hp
    show chiSquarePValue chi2cdf (kupiecLR rets varSeries c) = 1
    rw [chiSquarePValue, if_neg hp']

/-- Witness for C6 on `returns = [-0.05, 0.01]`, `var = [0.01, 0.01]`,
95% confidence: one violation out of two observations, so the exact
branch applies. -/
theorem kupiec_test_characterization_witness :
    (kupiecTest (fun _ => 1/2) [-5/100, 1/100] [1/100, 1/100]
        (95/100)).lr_statistic =
      -2 * (((1 : ℕ) : ℝ) * Real.log ((1 - 95/100 : ℚ)) +
        (((2 : ℕ) - 1 : ℕ) : ℝ) * Real.log ((1 - (1 - 95/100) : ℚ)) -
        ((1 : ℕ) : ℝ) * Real.log ((((1 : ℕ) : ℚ) / (2 : ℕ) : ℚ)) -
        (((2 : ℕ) - 1 : ℕ) : ℝ) *
          Real.log ((1 - ((1 : ℕ) : ℚ) / (2 : ℕ) : ℚ))) := by
  have hx : violationCount [-5/100, 1/100] [1/100, 1/100] = 1 := by
    norm_num [violationCount, List.zip, List.zipWith, List.filter]
  exact (kupiec_test_characterization (fun _ => 1/2) [-5/100, 1/100]
    [1/100, 1/100] (95/100) 2 1 rfl hx).1 (by norm_num) (by norm_num)

/-- The slice `pyTail` never invents elements: it is a sublist of its input. -/
theorem pyTail_sublist {α : Type} (xs : List α) (m : ℕ) :
    (pyTail xs m).Sublist xs := by
  rw [pyTail]
  split
  · exact List.Sublist.refl xs
  · exact List.drop_sublist _ xs

/-- On all-`some` inputs of equal length, the survivor extraction keeps
every pair. -/
theorem cleanPairs_map_some (r v : List ℚ) (hlen : r.length = v.length) :
    cleanPairs (r.map some) (v.map some) = r.zip v := by
  have htail : ∀ (l : List (Option ℚ)), l.length = r.length →
      pyTail l r.length = l := by
    intro l hl
    rw [pyTail]
    split
    · rfl
    · rw [hl, Nat.sub_self, List.drop_zero]
  have hcomp : ((fun q : Option ℚ × Option ℚ =>
      match q.1, q.2 with
      | some a, some b => some (a, b)
      | _, _ => none) ∘ Prod.map some some) =
      (some : ℚ × ℚ → Option (ℚ × ℚ)) := funext fun q => rfl
  rw [cleanPairs]
  have hm : min (r.map some).length (v.map some).length = r.length := by
    simp [hlen]
  rw [hm, htail _ (by simp), htail _ (by simp [hlen])]
  rw [List.zip_map, List.filterMap_map, hcomp, List.filterMap_some]

/-- On all-`some` inputs of equal length, the `run_backtest` prologue is
the identity: nothing is sliced away and no pair is dropped. -/
theorem alignClean_map_some (r v : List ℚ) (hlen : r.length = v.length) :
    alignClean (r.map some) (v.map some) = some (r, v) := by
  have htail : ∀ (l : List (Option ℚ)), l.length = r.length →
      pyTail l r.length = l := by
    intro l hl
    rw [pyTail]
    split
    · rfl
    · rw [hl, Nat.sub_self, List.drop_zero]
  have hm : min (r.map some).length (v.map some).length = r.length := by
    simp [hlen]
  rw [alignClean]
  simp only [hm]
  rw [htail _ (by simp), htail _ (by simp [hlen]),
    if_pos (by simp [hlen]), cleanPairs_map_some r v hlen]
  rw [List.map_fst_zip r v (le_of_eq hlen),
    List.map_snd_zip r v (le_of_eq hlen.symm)]

/-- C10 (amended): when the two input arrays are both empty or both
nonempty, `run_backtest` succeeds: the prologue yields the aligned,
NaN-free survivor lists, every surviving pair is drawn from the inputs,
and the whole result equals `run_backtest` re-run on the survivors alone
(so the tests and the traffic-light grade are computed solely from the
surviving pairs).  With exactly one empty input the `[-0:]` slice keeps
the nonempty array whole and the NaN-mask raises a shape error, modelled
by `none` — see the counterexample. -/
theorem run_backtest_clean_amended (chi2cdf : ℝ → ℝ)
    (rets varSeries : List (Option ℚ)) (c : ℚ)
    (h : rets = [] ↔ varSeries = []) :
    ∃ r v : List ℚ,
      alignClean rets varSeries = some (r, v) ∧
      (∀ q ∈ r.zip v, some q.1 ∈ rets ∧ some q.2 ∈ varSeries) ∧
      runBacktest chi2cdf rets varSeries c =
        runBacktest chi2cdf (r.map some) (v.map some) c ∧
      (runBacktest chi2cdf rets varSeries c).isSome := by
  rcases eq_or_ne rets [] with hre | hre
  · subst hre
    obtain rfl : varSeries = [] := h.mp rfl
    exact ⟨[], [], rfl, by simp, rfl, rfl⟩
  · have hve : varSeries ≠ [] := fun hv => hre (h.mpr hv)
    have h1 : 0 < rets.length := List.length_pos.mpr hre
    have h2 : 0 < varSeries.length := List.length_pos.mpr hve
    have hrlen : (pyTail rets (min rets.length varSeries.length)).length =
        min rets.length varSeries.length := by
      rw [pyTail, if_neg (by omega), List.length_drop]
      omega
    have hvlen : (pyTail varSeries (min rets.length varSeries.length)).length =
        min rets.length varSeries.length := by
      rw [pyTail, if_neg (by omega), List.length_drop]
      omega
    have hcond : (pyTail rets (min rets.length varSeries.length)).length =
        (pyTail varSeries (min rets.length varSeries.length)).length := by
      rw [hrlen, hvlen]
    have halign : alignClean rets varSeries =
        some ((cleanPairs rets varSeries).map Prod.fst,
          (cleanPairs rets varSeries).map Prod.snd) := by
      rw [alignClean]
      exact if_pos hcond
    have hPlen : ((cleanPairs rets varSeries).map Prod.fst).length =
        ((cleanPairs rets varSeries).map Prod.snd).length := by
      simp
    refine ⟨(cleanPairs rets varSeries).map Prod.fst,
      (cleanPairs rets varSeries).map Prod.snd, halign, ?_, ?_, ?_⟩
    · intro q hq
      have hqP : q ∈ cleanPairs rets varSeries := by
        rw [List.zip_map'] at hq
        have heta : (fun p : ℚ × ℚ => (p.1, p.2)) = id := funext fun p => rfl
        rwa [heta, List.map_id] at hq
      rw [cleanPairs] at hqP
      obtain ⟨pr, hpr, hf⟩ := List.mem_filterMap.mp hqP
      obtain ⟨o1, o2⟩ := pr
      have hmem := List.of_mem_zip hpr
      cases o1 with
      | none => simp at hf
      | some a =>
        cases o2 with
        | none => simp at hf
        | some b =>
          obtain rfl : (a, b) = q := by simpa using hf
          constructor
          · exact (pyTail_sublist rets _).subset hmem.1
          · exact (pyTail_sublist varSeries _).subset hmem.2
    · rw [runBacktest, halign, runBacktest, alignClean_map_some _ _ hPlen]
    · rw [runBacktest, halign]
      rfl

/-- C10, counterexample: with exactly one empty input `run_backtest`
raises (numpy cannot broadcast the NaN masks of shapes (1,) and (0,)
because `[-0:]` keeps the nonempty array whole); the claim that it never
raises on misaligned inputs fails. -/
theorem run_backtest_mixed_empty_counterexample :
    runBacktest (fun _ => 0) [some 0] [] (99/100) = none := rfl

/-- Auxiliary square-root bound: `σ ≤ |a|/√v` follows from
`σ²·v ≤ a²` for `v > 0`, `σ ≥ 0`. -/
theorem sigma_le_abs_div_sqrt {a v σ : ℝ} (hv : 0 < v) (hσ : 0 ≤ σ)
    (h : σ ^ 2 * v ≤ a ^ 2) : σ ≤ |a| / Real.sqrt v := by
  rw [le_div_iff (Real.sqrt_pos.mpr hv)]
  have h1 : (σ * Real.sqrt v) ^ 2 ≤ |a| ^ 2 := by
    rw [mul_pow, Real.sq_sqrt hv.le, sq_abs]
    exact h
  have h2 : 0 ≤ σ * Real.sqrt v := mul_nonneg hσ (Real.sqrt_nonneg v)
  calc σ * Real.sqrt v = Real.sqrt ((σ * Real.sqrt v) ^ 2) :=
        (Real.sqrt_sq h2).symm
    _ ≤ Real.sqrt (|a| ^ 2) := Real.sqrt_le_sqrt h1
    _ = |a| := Real.sqrt_sq (abs_nonneg a)

/-- C8 (amended): within the scanned range `rolling_window ≤ t < n`, an
index with defined, nonzero rolling std is flagged as a jump exactly when
`|z| ≥ threshold_sigma` and `|r_t| ≥ min_abs_return`.  (Indices below
`rolling_window` are never scanned even where the rolling statistics are
already defined — see the counterexample.) -/
theorem detect_jumps_flag_characterization (xs : List ℚ) (w : ℕ)
    (σth fl : ℚ) (t : ℕ) (hw : w ≤ t) (ht : t < xs.length) (s : ℝ)
    (hs : rollingStd xs w t = some s) (hs0 : s ≠ 0) :
    isJumpAt xs w σth fl t ↔
      ((σth : ℝ) ≤ |((xs.getD t 0 - qMean (rollWindow xs w t) : ℚ) : ℝ) / s| ∧
        fl ≤ |xs.getD t 0|) := by
  constructor
  · rintro ⟨-, -, s', hs', -, hz, hr⟩
    rw [hs] at hs'
    obtain rfl : s = s' := by injection hs'
    exact ⟨hz, hr⟩
  · rintro ⟨hz, hr⟩
    exact ⟨hw, ht, s, hs, hs0, hz, hr⟩

/-- Witness for C10: a 3-long return array with one NaN against a 2-long
VaR array — the tails are aligned, the NaN pair is dropped, and the
result is computed from the survivors. -/
theorem run_backtest_clean_amended_witness :
    ∃ r v : List ℚ,
      alignClean [some (1/100), none, some (-2/100)]
        [some (1/100), some (1/100)] = some (r, v) ∧
      (∀ q ∈ r.zip v,
        some q.1 ∈ [some (1/100), none, some (-2/100)] ∧
        some q.2 ∈ [some (1/100), some (1/100)]) ∧
      runBacktest (fun _ => 0) [some (1/100), none, some (-2/100)]
        [some (1/100), some (1/100)] (99/100) =
        runBacktest (fun _ => 0) (r.map some) (v.map some) (99/100) ∧
      (runBacktest (fun _ => 0) [some (1/100), none, some (-2/100)]
        [some (1/100), some (1/100)] (99/100)).isSome :=
  run_backtest_clean_amended (fun _ => 0)
    [some (1/100), none, some (-2/100)] [some (1/100), some (1/100)]
    (99/100) (by simp)

/-- C8, counterexample: on 20 flat returns followed by a +50% move, the
rolling statistics at index 20 are defined (21 ≥ min_periods = 20) with
nonzero std, the z-score exceeds the threshold 3 and the move exceeds the
3% floor, yet the index is **not** flagged — the scan loop starts at
`t = rolling_window = 60`, skipping every index in `[19, 60)` where the
rolling statistics are already defined. -/
theorem detect_jumps_scan_start_counterexample :
    (∃ s : ℝ, rollingStd (List.replicate 20 (0:ℚ) ++ [1/2]) 60 20 = some s ∧
      s ≠ 0 ∧
      (3 : ℝ) ≤
        |(((List.replicate 20 (0:ℚ) ++ [1/2]).getD 20 0 -
          qMean (rollWindow (List.replicate 20 (0:ℚ) ++ [1/2]) 60 20) : ℚ) :
            ℝ) / s| ∧
      (3/100 : ℚ) ≤ |(List.replicate 20 (0:ℚ) ++ [1/2]).getD 20 0|) ∧
    ¬ isJumpAt (List.replicate 20 (0:ℚ) ++ [1/2]) 60 3 (3/100) 20 := by
  have hwin : rollWindow (List.replicate 20 (0:ℚ) ++ [1/2]) 60 20 =
      List.replicate 20 (0:ℚ) ++ [1/2] := rfl
  have hvar : qVarSamp (List.replicate 20 (0:ℚ) ++ [1/2]) = 1/84 := by
    rw [qVarSamp, qSqDev, qMean]
    norm_num [List.sum_append, List.map_append, List.map_replicate,
      List.sum_replicate, List.length_append, List.length_replicate,
      List.map_cons, List.sum_cons, List.map_nil, List.sum_nil, nsmul_eq_mul]
  have hget : (List.replicate 20 (0:ℚ) ++ [1/2]).getD 20 0 = 1/2 := rfl
  have hmean : qMean (List.replicate 20 (0:ℚ) ++ [1/2]) = 1/42 := by
    rw [qMean]
    norm_num [List.sum_append, List.sum_replicate, List.length_append,
      List.length_replicate, List.sum_cons, List.sum_nil, nsmul_eq_mul]
  have hstd : rollingStd (List.replicate 20 (0:ℚ) ++ [1/2]) 60 20 =
      some (Real.sqrt ((1/84 : ℚ) : ℝ)) := by
    rw [rollingStd, hwin, hvar, if_pos]
    constructor
    · simp
    · simp
  constructor
  · refine ⟨Real.sqrt ((1/84 : ℚ) : ℝ), hstd, ?_, ?_, ?_⟩
    · exact ne_of_gt (Real.sqrt_pos.mpr (by norm_num))
    · rw [hwin, hget, hmean]
      rw [abs_div, abs_of_nonneg (Real.sqrt_nonneg _)]
      apply sigma_le_abs_div_sqrt (by norm_num) (by norm_num)
      push_cast
      norm_num
    · rw [hget]
      rw [show |(1/2 : ℚ)| = 1/2 from abs_of_nonneg (by norm_num)]
      norm_num
  · rintro ⟨h60, -⟩
    omega

/-- Witness for C8 at the default window 60: a +50% move at index 60
after 60 flat days is flagged. -/
theorem detect_jumps_flag_characterization_witness :
    isJumpAt (List.replicate 60 (0:ℚ) ++ [1/2]) 60 3 (3/100) 60 := by
  have hwin : rollWindow (List.replicate 60 (0:ℚ) ++ [1/2]) 60 60 =
      List.replicate 59 (0:ℚ) ++ [1/2] := rfl
  have hvar : qVarSamp (List.replicate 59 (0:ℚ) ++ [1/2]) = 1/240 := by
    rw [qVarSamp, qSqDev, qMean]
    norm_num [List.sum_append, List.map_append, List.map_replicate,
      List.sum_replicate, List.length_append, List.length_replicate,
      List.map_cons, List.sum_cons, List.map_nil, List.sum_nil, nsmul_eq_mul]
  have hget : (List.replicate 60 (0:ℚ) ++ [1/2]).getD 60 0 = 1/2 := rfl
  have hmean : qMean (List.replicate 59 (0:ℚ) ++ [1/2]) = 1/120 := by
    rw [qMean]
    norm_num [List.sum_append, List.sum_replicate, List.length_append,
      List.length_replicate, List.sum_cons, List.sum_nil, nsmul_eq_mul]
  have hstd : rollingStd (List.replicate 60 (0:ℚ) ++ [1/2]) 60 60 =
      some (Real.sqrt ((1/240 : ℚ) : ℝ)) := by
    rw [rollingStd, hwin, hvar, if_pos]
    constructor
    · simp
    · simp
  have hs0 : Real.sqrt ((1/240 : ℚ) : ℝ) ≠ 0 :=
    ne_of_gt (Real.sqrt_pos.mpr (by norm_num))
  apply (detect_jumps_flag_characterization (List.replicate 60 (0:ℚ) ++ [1/2])
    60 3 (3/100) 60 (by norm_num) (by simp) (Real.sqrt ((1/240 : ℚ) : ℝ))
    hstd hs0).mpr
  constructor
  · rw [hwin, hget, hmean]
    rw [abs_div, abs_of_nonneg (Real.sqrt_nonneg _)]
    apply sigma_le_abs_div_sqrt (by norm_num) (by norm_num)
    push_cast
    norm_num
  · rw [hget]
    rw [show |(1/2 : ℚ)| = 1/2 from abs_of_nonneg (by norm_num)]
    norm_num

end IneqreObx
